import Mathlib

/-!
Verification of the collision-detection and movement-resolution core of the
`hot_chickens` repository (`src/collision.rs` and the inlined per-tick
resolution logic in `src/main.rs`).

Shallow embedding conventions:
* `f32` scalars are embedded as exact rationals (`ℚ`).  All comparisons in the
  source are exact floating-point comparisons (no epsilons), so they map
  directly to decidable comparisons on `ℚ`.
* `glm::TVec2/TVec3/TVec4<f32>` become the `Vec2`/`Vec3`/`Vec4` structures
  below; `glm::dot` on `TVec4` is the full 4-component dot product, exactly as
  in the source.
* Code that panics is embedded as an `Option`-returning function, `none`
  standing for the panic.
-/

/-- A 2-component vector of rationals, embedding `glm::TVec2<f32>`. -/
structure Vec2 where
  x : ℚ
  y : ℚ
deriving DecidableEq, Repr

/-- A 3-component vector of rationals, embedding `glm::TVec3<f32>`. -/
structure Vec3 where
  x : ℚ
  y : ℚ
  z : ℚ
deriving DecidableEq, Repr

/-- A 4-component vector of rationals, embedding `glm::TVec4<f32>`. -/
structure Vec4 where
  x : ℚ
  y : ℚ
  z : ℚ
  w : ℚ
deriving DecidableEq, Repr

namespace Vec3

instance : Add Vec3 := ⟨fun a b => ⟨a.x + b.x, a.y + b.y, a.z + b.z⟩⟩

instance : Sub Vec3 := ⟨fun a b => ⟨a.x - b.x, a.y - b.y, a.z - b.z⟩⟩

instance : SMul ℚ Vec3 := ⟨fun q v => ⟨q * v.x, q * v.y, q * v.z⟩⟩

instance : Zero Vec3 := ⟨⟨0, 0, 0⟩⟩

/-- Embeds `glm::dot` on `TVec3<f32>`. -/
def dot (a b : Vec3) : ℚ := a.x * b.x + a.y * b.y + a.z * b.z

end Vec3

namespace Vec4

instance : Add Vec4 := ⟨fun a b => ⟨a.x + b.x, a.y + b.y, a.z + b.z, a.w + b.w⟩⟩

instance : Sub Vec4 := ⟨fun a b => ⟨a.x - b.x, a.y - b.y, a.z - b.z, a.w - b.w⟩⟩

instance : SMul ℚ Vec4 := ⟨fun q v => ⟨q * v.x, q * v.y, q * v.z, q * v.w⟩⟩

instance : Zero Vec4 := ⟨⟨0, 0, 0, 0⟩⟩

/-- Embeds `glm::dot` on `TVec4<f32>` (a full 4-component dot product). -/
def dot (a b : Vec4) : ℚ := a.x * b.x + a.y * b.y + a.z * b.z + a.w * b.w

end Vec4

/-- Embeds `struct LineSegment` from `src/collision.rs` (two `TVec4<f32>` points). -/
structure LineSegment where
  p0 : Vec4
  p1 : Vec4
deriving DecidableEq, Repr

/-- Embeds `LineSegment::length` from `src/collision.rs`:
`sqrt((p1.x - p0.x)^2 + (p1.y - p0.y)^2)`.  The square root of a rational is
in general irrational, so the result lives in `ℝ`. -/
noncomputable def LineSegment.length (s : LineSegment) : ℝ :=
  Real.sqrt (((s.p1.x - s.p0.x) ^ 2 + (s.p1.y - s.p0.y) ^ 2 : ℚ) : ℝ)

/-- Embeds `struct Plane` from `src/collision.rs`: an infinite plane given by a
point on the plane and a normal vector. -/
structure Plane where
  point : Vec4
  normal : Vec4
deriving DecidableEq, Repr

/-- Embeds `Plane::new`. -/
def Plane.new (point normal : Vec4) : Plane := ⟨point, normal⟩

/-- Embeds `struct PlaneBoundaries` from `src/collision.rs`. -/
structure PlaneBoundaries where
  xmin : ℚ
  xmax : ℚ
  ymin : ℚ
  ymax : ℚ
deriving DecidableEq, Repr

/-- Embeds `struct AABB` from `src/collision.rs`. -/
structure AABB where
  position : Vec4
  width : ℚ
  depth : ℚ
  height : ℚ
deriving DecidableEq, Repr

/-- Embeds `segment_hit_plane` from `src/collision.rs`: solve for the segment
parameter `x` of the segment-plane intersection; the denominator test is the
exact equality test of the source, the root is accepted iff `0 < x ≤ 1`, and
the returned point is rebuilt with `w = 1.0`. -/
def segment_hit_plane (plane : Plane) (segment : LineSegment) : Option Vec4 :=
  let denominator := Vec4.dot plane.normal (segment.p1 - segment.p0)
  if denominator ≠ 0 then
    let x := Vec4.dot plane.normal (plane.point - segment.p0) / denominator
    if 0 < x ∧ x ≤ 1 then
      let result := (1 - x) • segment.p0 + x • segment.p1
      some ⟨result.x, result.y, result.z, 1⟩
    else
      none
  else
    none

/-- Embeds `sign` from `src/collision.rs`. -/
def sign (test p0 p1 : Vec2) : ℚ :=
  (test.x - p1.x) * (p0.y - p1.y) - (p0.x - p1.x) * (test.y - p1.y)

/-- Embeds `point_in_triangle` from `src/collision.rs`: three edge sign tests;
the point is inside iff the signs do not include both a negative and a
positive value. -/
def point_in_triangle (test_point p0 p1 p2 : Vec2) : Bool :=
  let d1 := sign test_point p0 p1
  let d2 := sign test_point p1 p2
  let d3 := sign test_point p2 p0
  let has_neg := decide (d1 < 0) || decide (d2 < 0) || decide (d3 < 0)
  let has_pos := decide (d1 > 0) || decide (d2 > 0) || decide (d3 > 0)
  !(has_neg && has_pos)

/-- Embeds `point_plane_distance` from `src/collision.rs`. -/
def point_plane_distance (point : Vec4) (plane : Plane) : ℚ :=
  Vec4.dot plane.normal (point - plane.point)

/-- Embeds `aabb_get_top_plane` from `src/collision.rs`: the plane point is the
box position displaced by `height * 2.0` in `z`, with normal `(0,0,1,0)`. -/
def aabb_get_top_plane (aabb : AABB) : Plane × PlaneBoundaries :=
  let pos : Vec4 := ⟨aabb.position.x, aabb.position.y, aabb.position.z + aabb.height * 2, aabb.position.w⟩
  let plane := Plane.new pos ⟨0, 0, 1, 0⟩
  let aabb_boundaries : PlaneBoundaries :=
    ⟨-aabb.width + aabb.position.x, aabb.width + aabb.position.x,
     -aabb.depth + aabb.position.y, aabb.depth + aabb.position.y⟩
  (plane, aabb_boundaries)

/-- Embeds `aabb_get_bottom_plane` from `src/collision.rs`: the plane point is
the box position itself (no `z` displacement), with normal `(0,0,-1,0)`. -/
def aabb_get_bottom_plane (aabb : AABB) : Plane × PlaneBoundaries :=
  let pos : Vec4 := aabb.position
  let plane := Plane.new pos ⟨0, 0, -1, 0⟩
  let aabb_boundaries : PlaneBoundaries :=
    ⟨-aabb.width + aabb.position.x, aabb.width + aabb.position.x,
     -aabb.depth + aabb.position.y, aabb.depth + aabb.position.y⟩
  (plane, aabb_boundaries)

/-- Embeds `segment_plane_tallest_collision` from `src/collision.rs`: scan the
plane list, keep the hit whose intersection point has the strictly greatest
`z` seen so far; the returned plane carries the intersection point and the hit
plane's normal.  `max_height` starts at negative infinity, which is modelled
by the `Option` accumulator (`none` loses every comparison). -/
def segment_plane_tallest_collision (segment : LineSegment) (planes : List Plane) : Option Plane :=
  planes.foldl
    (fun collision plane =>
      match segment_hit_plane plane segment with
      | some point =>
        match collision with
        | none => some (Plane.new point plane.normal)
        | some best => if point.z > best.point.z then some (Plane.new point plane.normal) else collision
      | none => collision)
    none

/-- Embeds `struct Terrain` from `src/collision.rs` for the geometric queries:
a vertex list, a flat index list (triples), and one face normal per triple.
The `u16` indices are embedded as `Nat` (their numeric values). -/
structure Terrain where
  vertices : List Vec3
  indices : List Nat
  face_normals : List Vec3
deriving DecidableEq, Repr

/-- Embeds `glm::epsilon::<f32>()`, the `f32` machine epsilon `2 ^ (-23)`. -/
def f32Epsilon : ℚ := 1 / 8388608

namespace RayHit

/-- The `a` vertex of the triangle starting at flat index `3 * k`, as read by
`get_terrain_triangle(&terrain, i)` inside `ray_hit_terrain`.  Out-of-range
accesses panic in the source; here they take a `getD` default, and every
theorem below restricts to well-formed terrains where the default is never
reached. -/
def triA (terrain : Terrain) (k : Nat) : Vec3 :=
  terrain.vertices.getD (terrain.indices.getD (3 * k) 0) 0

/-- The `b` vertex of triangle `k` (see `triA`). -/
def triB (terrain : Terrain) (k : Nat) : Vec3 :=
  terrain.vertices.getD (terrain.indices.getD (3 * k + 1) 0) 0

/-- The `c` vertex of triangle `k` (see `triA`). -/
def triC (terrain : Terrain) (k : Nat) : Vec3 :=
  terrain.vertices.getD (terrain.indices.getD (3 * k + 2) 0) 0

/-- The face normal `terrain.face_normals[i / 3]` of triangle `k`. -/
def triNormal (terrain : Terrain) (k : Nat) : Vec3 :=
  terrain.face_normals.getD k 0

/-- The plane built in `ray_hit_terrain`:
`Plane::new(vec4(a.x, a.y, a.z, 1.0), vec4(normal.x, normal.y, normal.z, 1.0))`
(note the `w = 1.0` on the normal, exactly as in the source). -/
def triPlane (terrain : Terrain) (k : Nat) : Plane :=
  let a := triA terrain k
  let normal := triNormal terrain k
  Plane.new ⟨a.x, a.y, a.z, 1⟩ ⟨normal.x, normal.y, normal.z, 1⟩

/-- The denominator `glm::dot(&ray_direction, &plane.normal)` for triangle `k`. -/
def triDenom (terrain : Terrain) (k : Nat) (ray_direction : Vec4) : ℚ :=
  Vec4.dot ray_direction (triPlane terrain k).normal

/-- The ray parameter
`t = glm::dot(&(plane.point - ray_origin), &plane.normal) / denominator`. -/
def triT (terrain : Terrain) (k : Nat) (ray_origin ray_direction : Vec4) : ℚ :=
  Vec4.dot ((triPlane terrain k).point - ray_origin) (triPlane terrain k).normal /
    triDenom terrain k ray_direction

/-- The candidate intersection `ray_origin + t * ray_direction`. -/
def triIntersection (terrain : Terrain) (k : Nat) (ray_origin ray_direction : Vec4) : Vec4 :=
  ray_origin + triT terrain k ray_origin ray_direction • ray_direction

/-- The 2-D containment test of `ray_hit_terrain`: project the intersection
and the triangle onto `(x, y)` when `dot(plane.normal, (0,0,1,0)) > epsilon`,
else onto `(x, z)`, and run `point_in_triangle`. -/
def triProjInTriangle (terrain : Terrain) (k : Nat) (ray_origin ray_direction : Vec4) : Bool :=
  let a := triA terrain k
  let b := triB terrain k
  let c := triC terrain k
  let intersection := triIntersection terrain k ray_origin ray_direction
  if Vec4.dot (triPlane terrain k).normal ⟨0, 0, 1, 0⟩ > f32Epsilon then
    point_in_triangle ⟨intersection.x, intersection.y⟩ ⟨a.x, a.y⟩ ⟨b.x, b.y⟩ ⟨c.x, c.y⟩
  else
    point_in_triangle ⟨intersection.x, intersection.z⟩ ⟨a.x, a.z⟩ ⟨b.x, b.z⟩ ⟨c.x, c.z⟩

/-- Triangle `k` yields an acceptable hit: non-parallel plane, projection
inside the triangle, and a strictly positive ray parameter. -/
def accepts (terrain : Terrain) (k : Nat) (ray_origin ray_direction : Vec4) : Prop :=
  triDenom terrain k ray_direction ≠ 0 ∧
  triProjInTriangle terrain k ray_origin ray_direction = true ∧
  triT terrain k ray_origin ray_direction > 0

instance (terrain : Terrain) (k : Nat) (o d : Vec4) : Decidable (accepts terrain k o d) := by
  unfold accepts; infer_instance

/-- One iteration of the `ray_hit_terrain` loop for triangle `k`, threading the
accumulator `(smallest_t, closest_intersection)`; `none` is the initial state
`(f32::INFINITY, None)`, which loses every `t < smallest_t` comparison. -/
def step (terrain : Terrain) (ray_origin ray_direction : Vec4) (acc : Option (ℚ × Vec4)) (k : Nat) :
    Option (ℚ × Vec4) :=
  if triDenom terrain k ray_direction = 0 then acc
  else
    let t := triT terrain k ray_origin ray_direction
    if triProjInTriangle terrain k ray_origin ray_direction && decide (t > 0) &&
        (match acc with | none => true | some best => decide (t < best.1)) then
      some (t, triIntersection terrain k ray_origin ray_direction)
    else acc

end RayHit

/-- Embeds `ray_hit_terrain` from `src/collision.rs`: iterate every triangle
(`for i in (0..terrain.indices.len()).step_by(3)`), keep the accepted hit with
the smallest positive `t`, and return its intersection point. -/
def ray_hit_terrain (terrain : Terrain) (ray_origin ray_direction : Vec4) : Option Vec4 :=
  let n := (terrain.indices.length + 2) / 3
  ((List.range n).foldl (RayHit.step terrain ray_origin ray_direction) none).map (fun best => best.2)

/-- A terrain the source can traverse without panicking: the flat index list
is exactly a list of triples, one face normal exists per triple, and every
index is within the vertex list. -/
def Terrain.WellFormed (terrain : Terrain) : Prop :=
  terrain.indices.length = 3 * terrain.face_normals.length ∧
  ∀ ix ∈ terrain.indices, ix < terrain.vertices.length

instance (terrain : Terrain) : Decidable terrain.WellFormed := by
  unfold Terrain.WellFormed; infer_instance

/-- Modelled from the spec: the `MoveState` enumeration of the missing
`src/structs.rs` — `{Walking, Falling, Grounded}` (spec section 3). -/
inductive MoveState where
  | Walking : MoveState
  | Falling : MoveState
  | Grounded : MoveState
deriving DecidableEq, Repr

/-- Modelled from the spec: the `Player` aggregate of the missing
`src/structs.rs`, restricted to the fields that the per-tick resolution logic
in `src/main.rs` reads or writes (tracking-space position and velocity,
remaining jump count, movement state, capsule radius). -/
structure Player where
  tracking_position : Vec3
  tracking_velocity : Vec3
  jumps_remaining : Nat
  movement_state : MoveState
  radius : ℚ
deriving DecidableEq, Repr

/-- Modelled from the spec: the constant `Player::MAX_JUMPS` of the missing
`src/structs.rs`.  Its concrete value never matters to the claims (only the
fact that the resolution writes exactly this constant), so it is fixed
arbitrarily. -/
def Player.MAX_JUMPS : Nat := 2

/-- Embeds `let Z_UP = glm::vec3(0.0, 0.0, 1.0)` from `src/main.rs`. -/
def Z_UP : Vec3 := ⟨0, 0, 1⟩

/-- Embeds `const MIN_NORMAL_LIKENESS: f32 = 0.5` from `src/main.rs`. -/
def MIN_NORMAL_LIKENESS : ℚ := 1 / 2

/-- Embeds `const GRAVITY_VELOCITY_CAP: f32 = 10.0` from `src/main.rs`. -/
def GRAVITY_VELOCITY_CAP : ℚ := 10

/-- Embeds `const ACCELERATION_GRAVITY: f32 = 20.0` from `src/main.rs`. -/
def ACCELERATION_GRAVITY : ℚ := 20

/-- Embeds `const MAX_WATER_REMAINING: f32 = 75.0` from `src/main.rs`. -/
def MAX_WATER_REMAINING : ℚ := 75

/-- Embeds the gravity update of `src/main.rs` (lines 1129-1137): while the
movement state is not `Grounded`, subtract `ACCELERATION_GRAVITY * delta_time`
from `velocity.z` and clamp the result down to `GRAVITY_VELOCITY_CAP` only
when it exceeds that cap; a `Grounded` player is untouched. -/
def gravityStep (player : Player) (delta_time : ℚ) : Player :=
  if player.movement_state ≠ MoveState.Grounded then
    let vz := player.tracking_velocity.z - ACCELERATION_GRAVITY * delta_time
    let vz := if vz > GRAVITY_VELOCITY_CAP then GRAVITY_VELOCITY_CAP else vz
    { player with tracking_velocity := ⟨player.tracking_velocity.x, player.tracking_velocity.y, vz⟩ }
  else
    player

/-- Modelled from the spec: the `Triangle` view over two terrain indices
(spec section 3) used by the version of the collision module that
`src/main.rs` was written against (missing from `src/`): three vertices plus
the face normal. -/
structure Triangle where
  a : Vec3
  b : Vec3
  c : Vec3
  normal : Vec3
deriving DecidableEq, Repr

/-- Modelled from the spec: the 3-component `Plane` of the collision-module
version used by `src/main.rs` (missing from `src/`): a point on the plane and
a normal. -/
structure Plane3 where
  point : Vec3
  normal : Vec3
deriving DecidableEq, Repr

/-- Modelled from the spec: `projected_point_on_plane` (missing from `src/`);
per spec section 4.1 the signed distance is `normal·(point - plane.point)`
(positive in the direction of the normal) and the projection drops the query
point onto the plane along the normal. -/
def projected_point_on_plane (point : Vec3) (plane : Plane3) : ℚ × Vec3 :=
  let dist := Vec3.dot plane.normal (point - plane.point)
  (dist, point - dist • plane.normal)

/-- Modelled from the spec: `robust_point_in_triangle` (missing from `src/`);
per spec sections 4.1 and 4.2 it projects the query point and the triangle
onto the dominant 2-D plane — drop `z` when `|normal·up|` clears a threshold,
else drop `y` — and runs the 2-D `point_in_triangle` test.  The threshold and
axis choice follow the sibling code path in `ray_hit_terrain`
(`src/collision.rs` line 198). -/
def robust_point_in_triangle (point : Vec3) (tri : Triangle) : Bool :=
  if |tri.normal.z| > f32Epsilon then
    point_in_triangle ⟨point.x, point.y⟩ ⟨tri.a.x, tri.a.y⟩ ⟨tri.b.x, tri.b.y⟩ ⟨tri.c.x, tri.c.y⟩
  else
    point_in_triangle ⟨point.x, point.z⟩ ⟨tri.a.x, tri.a.z⟩ ⟨tri.b.x, tri.b.z⟩ ⟨tri.c.x, tri.c.z⟩

/-- Embeds the face-contact branch of the per-triangle capsule resolution in
`src/main.rs` (lines 1390-1403): given the reference point `capsule_ref` on
the capsule axis (whose computation, lines 1372-1387, uses helpers missing
from `src/`), compute the signed distance and plane projection of
`capsule_ref`; when the projection is inside the triangle and
`|dist| < radius`, either (floor-like normal, `dot(normal, Z_UP) ≥ 0.5`) zero
the whole velocity, reset the jump count, raise the position by `t` along
`Z_UP` and refill the water meter, or (steeper normal) push the position along
the triangle normal by `radius - dist`.  The result pairs the updated player
with the updated `remaining_water`; `none` reports that the face-contact
condition did not hold and the source would instead take the edge/vertex
branch (lines 1404-1415), which is outside this function. -/
def capsuleFaceResolution (player : Player) (remaining_water : ℚ) (tri : Triangle)
    (capsule_ref : Vec3) : Option (Player × ℚ) :=
  let triangle_plane : Plane3 := ⟨tri.a, tri.normal⟩
  let distPair := projected_point_on_plane capsule_ref triangle_plane
  let dist := distPair.1
  let point_on_plane := distPair.2
  if robust_point_in_triangle point_on_plane tri && decide (|dist| < player.radius) then
    if Vec3.dot tri.normal Z_UP ≥ MIN_NORMAL_LIKENESS then
      let denom := Vec3.dot tri.normal Z_UP
      let t := (Vec3.dot tri.normal (tri.a - capsule_ref) + player.radius) / denom
      some ({ player with
                tracking_velocity := 0,
                jumps_remaining := Player.MAX_JUMPS,
                tracking_position := player.tracking_position + t • Z_UP },
            MAX_WATER_REMAINING)
    else
      some ({ player with
                tracking_position := player.tracking_position + (player.radius - dist) • tri.normal },
            remaining_water)
  else
    none

/-- A 32-bit little-endian word assembled from four bytes.  `Terrain::from_ozt`
only recombines bytes into `f32` values via `f32::from_le_bytes` and never
inspects the numeric float values, so the loader model keeps each `f32` as its
32-bit bit pattern. -/
def u32LE (b0 b1 b2 b3 : Nat) : Nat :=
  b0 + 256 * b1 + 65536 * b2 + 16777216 * b3

/-- A vertex or face normal as read by `Terrain::from_ozt`: three `f32` values
kept as their little-endian 32-bit bit patterns (see `u32LE`). -/
structure Vec3Bits where
  x : Nat
  y : Nat
  z : Nat
deriving DecidableEq, Repr

/-- Modelled from the spec: `ozy::io::read_u32` from the external `ozy` crate
(not under `src/`); spec section 6 fixes the format to a little-endian `u32`.
Reads four bytes, returns the value and the remaining bytes, `none` on
truncation (the source then panics). -/
def read_u32 (bytes : List Nat) : Option (Nat × List Nat) :=
  match bytes with
  | b0 :: b1 :: b2 :: b3 :: rest => some (u32LE b0 b1 b2 b3, rest)
  | _ => none

/-- Models `std::io::Read::read_exact` on the in-memory byte stream: take `n`
bytes, `none` when fewer are available (the source then panics). -/
def read_exact (n : Nat) (bytes : List Nat) : Option (List Nat × List Nat) :=
  if n ≤ bytes.length then some (bytes.take n, bytes.drop n) else none

/-- Pairs consecutive bytes into little-endian `u16` values; a trailing odd
byte is dropped, matching a `u16` read of `len / 2` values. -/
def u16sOfBytes : List Nat → List Nat
  | b0 :: b1 :: rest => (b0 + 256 * b1) :: u16sOfBytes rest
  | _ => []

/-- Modelled from the spec: `ozy::io::read_u16_data` from the external `ozy`
crate (not under `src/`); spec section 6 fixes the format to little-endian
`u16` values.  Reads `count` values, `none` on truncation. -/
def read_u16_data (count : Nat) (bytes : List Nat) : Option (List Nat × List Nat) :=
  match read_exact (2 * count) bytes with
  | some (chunk, rest) => some (u16sOfBytes chunk, rest)
  | none => none

/-- The vertex/face-normal parsing loop of `Terrain::from_ozt`
(`for i in (0..bytes.len()).step_by(12)` with 12 explicit byte reads per
iteration): decode 12-byte chunks into `Vec3Bits`; a trailing partial chunk
makes the source index out of bounds and panic, modelled by `none`. -/
def parseVec3Chunks : List Nat → Option (List Vec3Bits)
  | [] => some []
  | b0 :: b1 :: b2 :: b3 :: b4 :: b5 :: b6 :: b7 :: b8 :: b9 :: b10 :: b11 :: rest =>
    match parseVec3Chunks rest with
    | some vs => some (⟨u32LE b0 b1 b2 b3, u32LE b4 b5 b6 b7, u32LE b8 b9 b10 b11⟩ :: vs)
    | none => none
  | _ => none

/-- The terrain value produced by `Terrain::from_ozt`, with `f32` fields kept
as bit patterns (see `Vec3Bits`). -/
structure RawTerrain where
  vertices : List Vec3Bits
  indices : List Nat
  face_normals : List Vec3Bits
deriving DecidableEq, Repr

/-- Embeds `Terrain::from_ozt` from `src/collision.rs` (lines 67-148) on an
in-memory byte stream: read a `u32` byte count and that many bytes of vertex
data (12 bytes per vertex), a `u32` `n` and `n / 2` `u16` indices, and a `u32`
byte count and that many bytes of face-normal data.  Every panic of the source
(failed read, truncated payload, partial 12-byte chunk) is `none`.  The loader
performs no validation of the index values themselves. -/
def RawTerrain.from_ozt (bytes : List Nat) : Option RawTerrain := do
  let (vertex_byte_count, r1) ← read_u32 bytes
  let (vertex_bytes, r2) ← read_exact vertex_byte_count r1
  let vertices ← parseVec3Chunks vertex_bytes
  let (index_count_raw, r3) ← read_u32 r2
  let (indices, r4) ← read_u16_data (index_count_raw / 2) r3
  let (normal_byte_count, r5) ← read_u32 r4
  let (normal_bytes, _r6) ← read_exact normal_byte_count r5
  let face_normals ← parseVec3Chunks normal_bytes
  some ⟨vertices, indices, face_normals⟩

/-- Embeds `get_terrain_triangle` from `src/collision.rs` (lines 282-288) on
the loader's terrain value: fetch three consecutive indices starting at
`triangle_index` and the vertices they reference; any out-of-bounds access
panics in the source, modelled by `none`. -/
def get_terrain_triangle (terrain : RawTerrain) (triangle_index : Nat) :
    Option (Vec3Bits × Vec3Bits × Vec3Bits) := do
  let a ← terrain.vertices.get? (← terrain.indices.get? triangle_index)
  let b ← terrain.vertices.get? (← terrain.indices.get? (triangle_index + 1))
  let c ← terrain.vertices.get? (← terrain.indices.get? (triangle_index + 2))
  some (a, b, c)

/-- Loop invariant for `segment_plane_tallest_collision`: after processing the
planes in `done`, the accumulator is `none` exactly when none of them was hit,
and otherwise records a hit point of maximal `z` together with the hit plane's
normal. -/
def TallestInv (segment : LineSegment) (done : List Plane) (acc : Option Plane) : Prop :=
  (acc = none → ∀ pl ∈ done, segment_hit_plane pl segment = none) ∧
  (∀ out : Plane, acc = some out →
    ((∃ pl ∈ done, segment_hit_plane pl segment = some out.point ∧ out.normal = pl.normal) ∧
     ∀ pl ∈ done, ∀ pt : Vec4, segment_hit_plane pl segment = some pt → pt.z ≤ out.point.z))

/-- Loop invariant for `ray_hit_terrain`: after processing the triangles in
`done`, the accumulator is `none` exactly when none of them was accepted, and
otherwise records the accepted hit of minimal ray parameter `t`. -/
def RayInv (terrain : Terrain) (o d : Vec4) (done : Nat → Prop) (acc : Option (ℚ × Vec4)) :
    Prop :=
  (acc = none → ∀ k, done k → ¬RayHit.accepts terrain k o d) ∧
  (∀ t p, acc = some (t, p) →
    ((∃ k, done k ∧ RayHit.accepts terrain k o d ∧ t = RayHit.triT terrain k o d ∧
        p = RayHit.triIntersection terrain k o d) ∧
     ∀ k, done k → RayHit.accepts terrain k o d → t ≤ RayHit.triT terrain k o d))

/-- Componentwise description of `Vec3` addition. -/
theorem vec3_add_def (a b : Vec3) : a + b = ⟨a.x + b.x, a.y + b.y, a.z + b.z⟩ := rfl

/-- Componentwise description of `Vec3` subtraction. -/
theorem vec3_sub_def (a b : Vec3) : a - b = ⟨a.x - b.x, a.y - b.y, a.z - b.z⟩ := rfl

/-- Componentwise description of the `Vec3` scalar action. -/
theorem vec3_smul_def (q : ℚ) (v : Vec3) : q • v = ⟨q * v.x, q * v.y, q * v.z⟩ := rfl

/-- The zero `Vec3` componentwise. -/
theorem vec3_zero_def : (0 : Vec3) = ⟨0, 0, 0⟩ := rfl

/-- Componentwise description of `Vec4` addition. -/
theorem vec4_add_def (a b : Vec4) : a + b = ⟨a.x + b.x, a.y + b.y, a.z + b.z, a.w + b.w⟩ := rfl

/-- Componentwise description of `Vec4` subtraction. -/
theorem vec4_sub_def (a b : Vec4) : a - b = ⟨a.x - b.x, a.y - b.y, a.z - b.z, a.w - b.w⟩ := rfl

/-- Componentwise description of the `Vec4` scalar action. -/
theorem vec4_smul_def (q : ℚ) (v : Vec4) : q • v = ⟨q * v.x, q * v.y, q * v.z, q * v.w⟩ := rfl

/-- The zero `Vec4` componentwise. -/
theorem vec4_zero_def : (0 : Vec4) = ⟨0, 0, 0, 0⟩ := rfl

/-- C5: the claim asserts the box spans `position.z ± height`, i.e. the top
plane sits at `position.z + height` and the bottom plane at
`position.z - height`.  Counterexample: for the box at the origin with
`height = 1`, `aabb_get_top_plane` places its point at `z = 2` (it adds
`height * 2.0`) and `aabb_get_bottom_plane` places its point at `z = 0` (it
never subtracts), so both claimed equalities fail. -/
theorem C5_aabb_half_extent_counterexample :
    ¬((aabb_get_top_plane ⟨⟨0, 0, 0, 1⟩, 1, 1, 1⟩).1.point.z =
        (⟨⟨0, 0, 0, 1⟩, 1, 1, 1⟩ : AABB).position.z + (⟨⟨0, 0, 0, 1⟩, 1, 1, 1⟩ : AABB).height ∧
      (aabb_get_bottom_plane ⟨⟨0, 0, 0, 1⟩, 1, 1, 1⟩).1.point.z =
        (⟨⟨0, 0, 0, 1⟩, 1, 1, 1⟩ : AABB).position.z - (⟨⟨0, 0, 0, 1⟩, 1, 1, 1⟩ : AABB).height) := by
  simp only [aabb_get_top_plane, aabb_get_bottom_plane, Plane.new]
  norm_num

/-- C5 (amended): `aabb_get_top_plane` returns the plane through
`position + (0, 0, height * 2, 0)` with normal `(0,0,1,0)`, and
`aabb_get_bottom_plane` returns the plane through `position` itself with
normal `(0,0,-1,0)`; both bound the plane to
`position.x ± width`, `position.y ± depth` in `x`/`y`. -/
theorem aabb_top_bottom_plane_spec (box : AABB) :
    (aabb_get_top_plane box).1.point =
      ⟨box.position.x, box.position.y, box.position.z + box.height * 2, box.position.w⟩ ∧
    (aabb_get_top_plane box).1.normal = ⟨0, 0, 1, 0⟩ ∧
    (aabb_get_bottom_plane box).1.point = box.position ∧
    (aabb_get_bottom_plane box).1.normal = ⟨0, 0, -1, 0⟩ ∧
    (aabb_get_top_plane box).2 =
      ⟨box.position.x - box.width, box.position.x + box.width,
       box.position.y - box.depth, box.position.y + box.depth⟩ ∧
    (aabb_get_bottom_plane box).2 =
      ⟨box.position.x - box.width, box.position.x + box.width,
       box.position.y - box.depth, box.position.y + box.depth⟩ := by
  refine ⟨rfl, rfl, rfl, rfl, ?_, ?_⟩ <;>
    · simp only [aabb_get_top_plane, aabb_get_bottom_plane]
      congr 1 <;> ring

/-- C7: on every tick where the movement state is not `Grounded`, the gravity
update sets `velocity.z` to `min (velocity.z - 20 * delta_time) 10`, leaving
the other components alone; on every tick where the state is `Grounded` it
leaves the player unchanged. -/
theorem gravityStep_spec (player : Player) (delta_time : ℚ) :
    (player.movement_state ≠ MoveState.Grounded →
      gravityStep player delta_time =
        { player with
            tracking_velocity :=
              ⟨player.tracking_velocity.x, player.tracking_velocity.y,
               min (player.tracking_velocity.z - ACCELERATION_GRAVITY * delta_time)
                 GRAVITY_VELOCITY_CAP⟩ }) ∧
    (player.movement_state = MoveState.Grounded → gravityStep player delta_time = player) := by
  constructor
  · intro h
    simp only [gravityStep, if_pos h]
    have hmin :
        (if player.tracking_velocity.z - ACCELERATION_GRAVITY * delta_time >
            GRAVITY_VELOCITY_CAP then GRAVITY_VELOCITY_CAP
          else player.tracking_velocity.z - ACCELERATION_GRAVITY * delta_time) =
          min (player.tracking_velocity.z - ACCELERATION_GRAVITY * delta_time)
            GRAVITY_VELOCITY_CAP := by
      rw [min_def]
      split_ifs <;> linarith
    rw [hmin]
  · intro h
    simp [gravityStep, h]

/-- C7 witness: a falling player with upward speed 5 and `delta_time = 1` ends
the gravity step with vertical speed `min (5 - 20) 10 = -15`. -/
theorem gravityStep_spec_witness :
    gravityStep ⟨⟨0, 0, 0⟩, ⟨1, 2, 5⟩, 2, MoveState.Falling, 3 / 20⟩ 1 =
      ⟨⟨0, 0, 0⟩, ⟨1, 2, -15⟩, 2, MoveState.Falling, 3 / 20⟩ := by
  have h :=
    (gravityStep_spec ⟨⟨0, 0, 0⟩, ⟨1, 2, 5⟩, 2, MoveState.Falling, 3 / 20⟩ 1).1 (by decide)
  rw [h]
  congr 1
  simp [ACCELERATION_GRAVITY, GRAVITY_VELOCITY_CAP]
  norm_num

/-- C10: `LineSegment::length` only measures the segment's projection onto the
`xy` plane: it is unchanged by arbitrary changes to the `z` (and `w`)
components of the endpoints, and a purely vertical non-degenerate segment has
length `0`. -/
theorem lineSegment_length_ignores_z (s t : LineSegment)
    (hx0 : t.p0.x = s.p0.x) (hy0 : t.p0.y = s.p0.y)
    (hx1 : t.p1.x = s.p1.x) (hy1 : t.p1.y = s.p1.y) :
    t.length = s.length ∧
    (s.p1.x = s.p0.x → s.p1.y = s.p0.y → s.p0.z ≠ s.p1.z → s.length = 0) := by
  constructor
  · simp only [LineSegment.length, hx0, hy0, hx1, hy1]
  · intro hvx hvy _
    simp [LineSegment.length, hvx, hvy]

/-- C10 witness: the vertical segment from `(0,0,0)` to `(0,0,5)` has the same
length as the one from `(0,0,3)` to `(0,0,9)`, namely `0`. -/
theorem lineSegment_length_ignores_z_witness :
    LineSegment.length ⟨⟨0, 0, 3, 1⟩, ⟨0, 0, 9, 1⟩⟩ =
      LineSegment.length ⟨⟨0, 0, 0, 1⟩, ⟨0, 0, 5, 1⟩⟩ ∧
    LineSegment.length ⟨⟨0, 0, 0, 1⟩, ⟨0, 0, 5, 1⟩⟩ = 0 := by
  have h :=
    lineSegment_length_ignores_z ⟨⟨0, 0, 0, 1⟩, ⟨0, 0, 5, 1⟩⟩ ⟨⟨0, 0, 3, 1⟩, ⟨0, 0, 9, 1⟩⟩
      rfl rfl rfl rfl
  exact ⟨h.1, h.2 rfl rfl (by norm_num)⟩

/-- The denominator `glm::dot(&plane.normal, &(segment.p1 - segment.p0))` of
`segment_hit_plane`. -/
def shpDenom (plane : Plane) (segment : LineSegment) : ℚ :=
  Vec4.dot plane.normal (segment.p1 - segment.p0)

/-- The root `x = glm::dot(&plane.normal, &(plane.point - segment.p0)) / denominator`
of `segment_hit_plane` (in Lean, division by zero yields `0`; the root is only
meaningful when `shpDenom ≠ 0`). -/
def shpRoot (plane : Plane) (segment : LineSegment) : ℚ :=
  Vec4.dot plane.normal (plane.point - segment.p0) / shpDenom plane segment

/-- C2: `segment_hit_plane` returns a point iff the denominator is exactly
non-zero and the root satisfies `0 < t ≤ 1`; the returned point is the
interpolation `(1 - t) * p0 + t * p1` (with `w` rebuilt as `1`), and for
endpoints with `w = 1` it lies exactly on the plane
(`point_plane_distance = 0`). -/
theorem segment_hit_plane_spec (plane : Plane) (seg : LineSegment) :
    ((∃ q, segment_hit_plane plane seg = some q) ↔
      shpDenom plane seg ≠ 0 ∧ 0 < shpRoot plane seg ∧ shpRoot plane seg ≤ 1) ∧
    (∀ q, segment_hit_plane plane seg = some q →
      q = ⟨((1 - shpRoot plane seg) • seg.p0 + shpRoot plane seg • seg.p1).x,
           ((1 - shpRoot plane seg) • seg.p0 + shpRoot plane seg • seg.p1).y,
           ((1 - shpRoot plane seg) • seg.p0 + shpRoot plane seg • seg.p1).z, 1⟩ ∧
      (seg.p0.w = 1 → seg.p1.w = 1 → point_plane_distance q plane = 0)) := by
  simp only [shpDenom, shpRoot]
  constructor
  · constructor
    · rintro ⟨q, hq⟩
      simp only [segment_hit_plane] at hq
      split_ifs at hq with h1 h2
      exact ⟨h1, h2.1, h2.2⟩
    · rintro ⟨h1, h2, h3⟩
      have hs : (segment_hit_plane plane seg).isSome := by
        simp only [segment_hit_plane]
        rw [if_pos h1, if_pos (And.intro h2 h3)]
        rfl
      exact Option.isSome_iff_exists.mp hs
  · intro q hq
    simp only [segment_hit_plane] at hq
    split_ifs at hq with h1 h2
    obtain rfl : _ = q := Option.some.inj hq
    refine ⟨rfl, ?_⟩
    intro hw0 hw1
    simp only [point_plane_distance, Vec4.dot, vec4_sub_def, vec4_add_def, vec4_smul_def,
      hw0, hw1, sub_self, mul_zero, add_zero]
    simp only [Vec4.dot, vec4_sub_def, hw0, hw1, sub_self, mul_zero, add_zero] at h1
    field_simp
    ring

/-- C2 witness: the vertical segment from `(0,0,1)` to `(0,0,-1)` crosses the
horizontal plane through the origin at `(0,0,0)` (root `t = 1/2`), and that
point lies exactly on the plane. -/
theorem segment_hit_plane_spec_witness :
    segment_hit_plane ⟨⟨0, 0, 0, 1⟩, ⟨0, 0, 1, 0⟩⟩ ⟨⟨0, 0, 1, 1⟩, ⟨0, 0, -1, 1⟩⟩ =
      some ⟨0, 0, 0, 1⟩ ∧
    point_plane_distance ⟨0, 0, 0, 1⟩ ⟨⟨0, 0, 0, 1⟩, ⟨0, 0, 1, 0⟩⟩ = 0 := by
  have hsome :
      segment_hit_plane ⟨⟨0, 0, 0, 1⟩, ⟨0, 0, 1, 0⟩⟩ ⟨⟨0, 0, 1, 1⟩, ⟨0, 0, -1, 1⟩⟩ =
        some ⟨0, 0, 0, 1⟩ := by
    norm_num [segment_hit_plane, Vec4.dot, vec4_sub_def, vec4_add_def, vec4_smul_def]
  exact ⟨hsome,
    ((segment_hit_plane_spec ⟨⟨0, 0, 0, 1⟩, ⟨0, 0, 1, 0⟩⟩ ⟨⟨0, 0, 1, 1⟩, ⟨0, 0, -1, 1⟩⟩).2
      ⟨0, 0, 0, 1⟩ hsome).2 rfl rfl⟩

/-- Swapping the two edge endpoints negates the `sign` test. -/
theorem sign_swap (t p q : Vec2) : sign t q p = -sign t p q := by
  unfold sign; ring

/-- Propositional reading of `point_in_triangle`: true iff the three edge
signs do not contain both a negative and a positive value. -/
theorem point_in_triangle_iff (t a b c : Vec2) :
    point_in_triangle t a b c = true ↔
      ¬((sign t a b < 0 ∨ sign t b c < 0 ∨ sign t c a < 0) ∧
        (0 < sign t a b ∨ 0 < sign t b c ∨ 0 < sign t c a)) := by
  simp only [point_in_triangle, Bool.not_eq_true', Bool.and_eq_false_iff, Bool.or_eq_false_iff,
    decide_eq_false_iff_not, gt_iff_lt]
  tauto

/-- C9: `point_in_triangle` is invariant under the cyclic rotations and the
reversal of the triangle's winding, and for a non-degenerate triangle
(`sign a b c ≠ 0`) it accepts the centroid `(a + b + c) / 3`. -/
theorem point_in_triangle_winding_centroid (t a b c : Vec2) :
    (point_in_triangle t a b c = point_in_triangle t b c a ∧
     point_in_triangle t a b c = point_in_triangle t c a b ∧
     point_in_triangle t a b c = point_in_triangle t c b a) ∧
    (sign a b c ≠ 0 →
      point_in_triangle ⟨(a.x + b.x + c.x) / 3, (a.y + b.y + c.y) / 3⟩ a b c = true) := by
  constructor
  · refine ⟨?_, ?_, ?_⟩ <;> rw [Bool.eq_iff_iff, point_in_triangle_iff, point_in_triangle_iff]
    · tauto
    · tauto
    · rw [sign_swap t b c, sign_swap t a b, sign_swap t c a]
      simp only [neg_lt_zero, neg_pos]
      tauto
  · intro hnd
    rw [point_in_triangle_iff]
    have h1 : sign ⟨(a.x + b.x + c.x) / 3, (a.y + b.y + c.y) / 3⟩ a b = sign a b c / 3 := by
      unfold sign; ring
    have h2 : sign ⟨(a.x + b.x + c.x) / 3, (a.y + b.y + c.y) / 3⟩ b c = sign a b c / 3 := by
      unfold sign; ring
    have h3 : sign ⟨(a.x + b.x + c.x) / 3, (a.y + b.y + c.y) / 3⟩ c a = sign a b c / 3 := by
      unfold sign; ring
    rw [h1, h2, h3]
    rintro ⟨hneg, hpos⟩
    rcases hneg with h | h | h <;> rcases hpos with h4 | h4 | h4 <;> linarith

/-- C9 witness: for the concrete triangle `(0,0), (1,0), (0,1)` and test point
`(5,5)` the winding invariances hold, and the centroid `(1/3, 1/3)` is
accepted. -/
theorem point_in_triangle_winding_centroid_witness :
    (point_in_triangle ⟨5, 5⟩ ⟨0, 0⟩ ⟨1, 0⟩ ⟨0, 1⟩ =
       point_in_triangle ⟨5, 5⟩ ⟨1, 0⟩ ⟨0, 1⟩ ⟨0, 0⟩ ∧
     point_in_triangle ⟨5, 5⟩ ⟨0, 0⟩ ⟨1, 0⟩ ⟨0, 1⟩ =
       point_in_triangle ⟨5, 5⟩ ⟨0, 1⟩ ⟨0, 0⟩ ⟨1, 0⟩ ∧
     point_in_triangle ⟨5, 5⟩ ⟨0, 0⟩ ⟨1, 0⟩ ⟨0, 1⟩ =
       point_in_triangle ⟨5, 5⟩ ⟨0, 1⟩ ⟨1, 0⟩ ⟨0, 0⟩) ∧
    point_in_triangle ⟨(0 + 1 + 0) / 3, (0 + 0 + 1) / 3⟩ ⟨0, 0⟩ ⟨1, 0⟩ ⟨0, 1⟩ = true := by
  refine ⟨(point_in_triangle_winding_centroid ⟨5, 5⟩ ⟨0, 0⟩ ⟨1, 0⟩ ⟨0, 1⟩).1, ?_⟩
  have h :=
    (point_in_triangle_winding_centroid ⟨5, 5⟩ ⟨0, 0⟩ ⟨1, 0⟩ ⟨0, 1⟩).2
      (by norm_num [sign])
  convert h using 3

/-- C1 counterexample: a concrete face contact with a perfectly flat floor
triangle (`normal = (0,0,1)`, projection inside, `|dist| = 1/10 < radius =
3/20`, `dot(normal, up) = 1 ≥ 0.5`) takes the floor branch (the result is
`some`), yet the player's movement state after the resolution step is still
`Falling`: the resolution never assigns `Grounded`, contradicting the claim
that it sets the movement state to `Grounded`. -/
theorem capsuleFaceResolution_floor_counterexample :
    (capsuleFaceResolution ⟨⟨0, 0, 0⟩, ⟨1, 2, -5⟩, 0, MoveState.Falling, 3 / 20⟩ 50
        ⟨⟨-10, -10, 0⟩, ⟨10, -10, 0⟩, ⟨0, 10, 0⟩, ⟨0, 0, 1⟩⟩ ⟨0, 0, 1 / 10⟩).map
      (fun r => r.1.movement_state) = some MoveState.Falling ∧
    MoveState.Falling ≠ MoveState.Grounded := by
  constructor
  · norm_num [capsuleFaceResolution, robust_point_in_triangle, projected_point_on_plane,
      point_in_triangle, sign, Vec3.dot, vec3_sub_def, vec3_smul_def, vec3_add_def, f32Epsilon,
      Z_UP, MIN_NORMAL_LIKENESS, abs_of_nonneg]
  · decide

/-- C1 (amended): whenever the plane projection of the capsule reference point
lies inside the triangle with `|dist| < radius` and the face normal is
floor-like (`dot(normal, up) ≥ 0.5`), the face-contact resolution raises the
player's position by `t = (normal·(a - capsule_ref) + radius) / (normal·up)`
along `up`, zeroes the whole velocity vector (hence in particular its vertical
component), resets the jump count to `Player::MAX_JUMPS` and refills the water
meter — but it leaves the movement state exactly as it was (the resolution
code never assigns `Grounded`). -/
theorem capsuleFaceResolution_floor (player : Player) (water : ℚ) (tri : Triangle)
    (capsule_ref : Vec3)
    (hin : robust_point_in_triangle
      (projected_point_on_plane capsule_ref ⟨tri.a, tri.normal⟩).2 tri = true)
    (hdist : |(projected_point_on_plane capsule_ref ⟨tri.a, tri.normal⟩).1| < player.radius)
    (hfloor : Vec3.dot tri.normal Z_UP ≥ MIN_NORMAL_LIKENESS) :
    capsuleFaceResolution player water tri capsule_ref =
      some ({ player with
                tracking_velocity := 0,
                jumps_remaining := Player.MAX_JUMPS,
                tracking_position := player.tracking_position +
                  ((Vec3.dot tri.normal (tri.a - capsule_ref) + player.radius) /
                    Vec3.dot tri.normal Z_UP) • Z_UP },
            MAX_WATER_REMAINING) ∧
    (capsuleFaceResolution player water tri capsule_ref).map
      (fun r => r.1.movement_state) = some player.movement_state := by
  have hcond :
      (robust_point_in_triangle
          (projected_point_on_plane capsule_ref ⟨tri.a, tri.normal⟩).2 tri &&
        decide
          (|(projected_point_on_plane capsule_ref ⟨tri.a, tri.normal⟩).1| <
            player.radius)) = true := by
    rw [hin, decide_eq_true hdist]
    rfl
  constructor
  · simp only [capsuleFaceResolution]
    rw [if_pos hcond, if_pos hfloor]
  · simp only [capsuleFaceResolution]
    rw [if_pos hcond, if_pos hfloor]
    rfl

/-- C1 witness: the concrete floor contact of the counterexample, pushed
through the amended theorem — the player rises by `1/20`, the velocity is
zeroed, the jumps reset, the water refilled, and the state stays `Falling`. -/
theorem capsuleFaceResolution_floor_witness :
    capsuleFaceResolution ⟨⟨0, 0, 0⟩, ⟨1, 2, -5⟩, 0, MoveState.Falling, 3 / 20⟩ 50
        ⟨⟨-10, -10, 0⟩, ⟨10, -10, 0⟩, ⟨0, 10, 0⟩, ⟨0, 0, 1⟩⟩ ⟨0, 0, 1 / 10⟩ =
      some (⟨⟨0, 0, 1 / 20⟩, ⟨0, 0, 0⟩, Player.MAX_JUMPS, MoveState.Falling, 3 / 20⟩, 75) := by
  have h :=
    (capsuleFaceResolution_floor ⟨⟨0, 0, 0⟩, ⟨1, 2, -5⟩, 0, MoveState.Falling, 3 / 20⟩ 50
        ⟨⟨-10, -10, 0⟩, ⟨10, -10, 0⟩, ⟨0, 10, 0⟩, ⟨0, 0, 1⟩⟩ ⟨0, 0, 1 / 10⟩
        (by norm_num [robust_point_in_triangle, projected_point_on_plane, point_in_triangle,
          sign, Vec3.dot, vec3_sub_def, vec3_smul_def, f32Epsilon])
        (by norm_num [projected_point_on_plane, Vec3.dot, vec3_sub_def, abs_of_nonneg])
        (by norm_num [Vec3.dot, Z_UP, MIN_NORMAL_LIKENESS])).1
  rw [h]
  norm_num [Vec3.dot, vec3_sub_def, vec3_add_def, vec3_smul_def, Z_UP, MAX_WATER_REMAINING]
  rfl

/-- C6: whenever the plane projection of the capsule reference point lies
inside the triangle with `|dist| < radius` but the face normal is too steep to
be a floor (`dot(normal, up) < 0.5`), the face-contact resolution pushes the
player's position along the triangle normal by `radius - dist` and changes
nothing else: velocity, jump count, movement state and water are exactly the
values they had before. -/
theorem capsuleFaceResolution_wall (player : Player) (water : ℚ) (tri : Triangle)
    (capsule_ref : Vec3)
    (hin : robust_point_in_triangle
      (projected_point_on_plane capsule_ref ⟨tri.a, tri.normal⟩).2 tri = true)
    (hdist : |(projected_point_on_plane capsule_ref ⟨tri.a, tri.normal⟩).1| < player.radius)
    (hsteep : Vec3.dot tri.normal Z_UP < MIN_NORMAL_LIKENESS) :
    capsuleFaceResolution player water tri capsule_ref =
      some ({ player with
                tracking_position := player.tracking_position +
                  (player.radius -
                    (projected_point_on_plane capsule_ref ⟨tri.a, tri.normal⟩).1) • tri.normal },
            water) ∧
    (capsuleFaceResolution player water tri capsule_ref).map
      (fun r => (r.1.tracking_velocity, r.1.jumps_remaining, r.1.movement_state, r.2)) =
      some (player.tracking_velocity, player.jumps_remaining, player.movement_state, water) := by
  have hcond :
      (robust_point_in_triangle
          (projected_point_on_plane capsule_ref ⟨tri.a, tri.normal⟩).2 tri &&
        decide
          (|(projected_point_on_plane capsule_ref ⟨tri.a, tri.normal⟩).1| <
            player.radius)) = true := by
    rw [hin, decide_eq_true hdist]
    rfl
  constructor
  · simp only [capsuleFaceResolution]
    rw [if_pos hcond, if_neg (not_le.mpr hsteep)]
  · simp only [capsuleFaceResolution]
    rw [if_pos hcond, if_neg (not_le.mpr hsteep)]
    rfl

/-- C6 witness: a vertical wall face (`normal = (0,1,0)`, so
`dot(normal, up) = 0 < 0.5`) in contact with the capsule (`dist = 1/10`,
radius `3/20`) pushes the player out by `1/20` along the wall normal and
leaves velocity, jumps, state and water untouched. -/
theorem capsuleFaceResolution_wall_witness :
    capsuleFaceResolution ⟨⟨0, 0, 0⟩, ⟨1, 2, -5⟩, 0, MoveState.Falling, 3 / 20⟩ 50
        ⟨⟨-10, 0, -10⟩, ⟨10, 0, -10⟩, ⟨0, 0, 10⟩, ⟨0, 1, 0⟩⟩ ⟨0, 1 / 10, 0⟩ =
      some (⟨⟨0, 1 / 20, 0⟩, ⟨1, 2, -5⟩, 0, MoveState.Falling, 3 / 20⟩, 50) := by
  have h :=
    (capsuleFaceResolution_wall ⟨⟨0, 0, 0⟩, ⟨1, 2, -5⟩, 0, MoveState.Falling, 3 / 20⟩ 50
        ⟨⟨-10, 0, -10⟩, ⟨10, 0, -10⟩, ⟨0, 0, 10⟩, ⟨0, 1, 0⟩⟩ ⟨0, 1 / 10, 0⟩
        (by norm_num [robust_point_in_triangle, projected_point_on_plane, point_in_triangle,
          sign, Vec3.dot, vec3_sub_def, vec3_smul_def, f32Epsilon])
        (by norm_num [projected_point_on_plane, Vec3.dot, vec3_sub_def, abs_of_nonneg])
        (by norm_num [Vec3.dot, Z_UP, MIN_NORMAL_LIKENESS])).1
  rw [h]
  norm_num [projected_point_on_plane, Vec3.dot, vec3_sub_def, vec3_add_def, vec3_smul_def]

/-- One step of the `segment_plane_tallest_collision` fold preserves
`TallestInv`. -/
theorem tallestInv_step (segment : LineSegment) (done : List Plane) (acc : Option Plane)
    (plane : Plane) (h : TallestInv segment done acc) :
    TallestInv segment (done ++ [plane])
      ((fun collision plane =>
        match segment_hit_plane plane segment with
        | some point =>
          match collision with
          | none => some (Plane.new point plane.normal)
          | some best =>
            if point.z > best.point.z then some (Plane.new point plane.normal) else collision
        | none => collision) acc plane) := by
  rcases hhit : segment_hit_plane plane segment with _ | pt
  · simp only [hhit]
    constructor
    · intro hnone pl hpl
      rcases List.mem_append.mp hpl with hd | hs
      · exact h.1 hnone pl hd
      · rw [List.mem_singleton.mp hs]
        exact hhit
    · intro out hout
      obtain ⟨⟨pl0, hpl0, hhit0, hnorm0⟩, hbound⟩ := h.2 out hout
      refine ⟨⟨pl0, List.mem_append_left _ hpl0, hhit0, hnorm0⟩, ?_⟩
      intro pl hpl pt2 hpt2
      rcases List.mem_append.mp hpl with hd | hs
      · exact hbound pl hd pt2 hpt2
      · rw [List.mem_singleton.mp hs] at hpt2
        rw [hhit] at hpt2
        cases hpt2
  · rcases acc with _ | best
    · simp only [hhit]
      constructor
      · intro hnone
        cases hnone
      · intro out hout
        obtain rfl : Plane.new pt plane.normal = out := Option.some.inj hout
        constructor
        · exact ⟨plane, List.mem_append_right _ (List.mem_singleton.mpr rfl), hhit, rfl⟩
        · intro pl hpl pt2 hpt2
          rcases List.mem_append.mp hpl with hd | hs
          · rw [h.1 rfl pl hd] at hpt2
            cases hpt2
          · rw [List.mem_singleton.mp hs] at hpt2
            rw [hhit] at hpt2
            obtain rfl : pt = pt2 := Option.some.inj hpt2
            exact le_refl _
    · by_cases hgt : pt.z > best.point.z
      · simp only [hhit, if_pos hgt]
        constructor
        · intro hnone
          cases hnone
        · intro out hout
          obtain rfl : Plane.new pt plane.normal = out := Option.some.inj hout
          constructor
          · exact ⟨plane, List.mem_append_right _ (List.mem_singleton.mpr rfl), hhit, rfl⟩
          · intro pl hpl pt2 hpt2
            rcases List.mem_append.mp hpl with hd | hs
            · have := (h.2 best rfl).2 pl hd pt2 hpt2
              exact le_trans this (le_of_lt hgt)
            · rw [List.mem_singleton.mp hs] at hpt2
              rw [hhit] at hpt2
              obtain rfl : pt = pt2 := Option.some.inj hpt2
              exact le_refl _
      · simp only [hhit, if_neg hgt]
        constructor
        · intro hnone
          cases hnone
        · intro out hout
          obtain rfl : best = out := Option.some.inj hout
          obtain ⟨⟨pl0, hpl0, hhit0, hnorm0⟩, hbound⟩ := h.2 best rfl
          refine ⟨⟨pl0, List.mem_append_left _ hpl0, hhit0, hnorm0⟩, ?_⟩
          intro pl hpl pt2 hpt2
          rcases List.mem_append.mp hpl with hd | hs
          · exact hbound pl hd pt2 hpt2
          · rw [List.mem_singleton.mp hs] at hpt2
            rw [hhit] at hpt2
            obtain rfl : pt = pt2 := Option.some.inj hpt2
            exact le_of_not_lt hgt

/-- The `segment_plane_tallest_collision` fold carries `TallestInv` over any
remaining plane list. -/
theorem tallestInv_foldl (segment : LineSegment) :
    ∀ (l done : List Plane) (acc : Option Plane),
      TallestInv segment done acc →
      TallestInv segment (done ++ l)
        (List.foldl
          (fun collision plane =>
            match segment_hit_plane plane segment with
            | some point =>
              match collision with
              | none => some (Plane.new point plane.normal)
              | some best =>
                if point.z > best.point.z then some (Plane.new point plane.normal) else collision
            | none => collision) acc l) := by
  intro l
  induction l with
  | nil =>
    intro done acc h
    simpa using h
  | cons p l ih =>
    intro done acc h
    have hstep := tallestInv_step segment done acc p h
    have hrest := ih (done ++ [p]) _ hstep
    rw [List.foldl_cons]
    rw [List.append_assoc] at hrest
    simpa using hrest

/-- C3: `segment_plane_tallest_collision` returns `none` exactly when no plane
in the list is hit by the segment, and otherwise returns a plane whose
reference point is a hit point with the greatest `z` coordinate among all
segment-plane hits and whose normal is the hit plane's normal. -/
theorem segment_plane_tallest_collision_spec (segment : LineSegment) (planes : List Plane) :
    (segment_plane_tallest_collision segment planes = none ↔
      ∀ pl ∈ planes, segment_hit_plane pl segment = none) ∧
    (∀ out, segment_plane_tallest_collision segment planes = some out →
      (∃ pl ∈ planes, segment_hit_plane pl segment = some out.point ∧ out.normal = pl.normal) ∧
      ∀ pl ∈ planes, ∀ pt, segment_hit_plane pl segment = some pt → pt.z ≤ out.point.z) := by
  have hbase : TallestInv segment [] none := by
    constructor
    · intro _ pl hpl
      cases hpl
    · intro out hout
      cases hout
  have h := tallestInv_foldl segment planes [] none hbase
  rw [List.nil_append] at h
  have heq : segment_plane_tallest_collision segment planes =
      List.foldl
        (fun collision plane =>
          match segment_hit_plane plane segment with
          | some point =>
            match collision with
            | none => some (Plane.new point plane.normal)
            | some best =>
              if point.z > best.point.z then some (Plane.new point plane.normal) else collision
          | none => collision) none planes := rfl
  constructor
  · constructor
    · intro hnone
      rw [heq] at hnone
      exact h.1 hnone
    · intro hall
      rcases hres : segment_plane_tallest_collision segment planes with _ | out
      · rfl
      · rw [heq] at hres
        obtain ⟨⟨pl, hpl, hhit, _⟩, _⟩ := h.2 out hres
        rw [hall pl hpl] at hhit
        cases hhit
  · intro out hout
    rw [heq] at hout
    exact h.2 out hout

/-- C3 witness: with two horizontal floor planes at `z = 2` and `z = 5`, both
crossed by the vertical probe segment from `z = 6` down to `z = 0`, the
tallest-collision search returns the `z = 5` hit (carrying that intersection
point and the plane's normal), and every other hit lies at or below `z = 5`. -/
theorem segment_plane_tallest_collision_spec_witness :
    segment_plane_tallest_collision ⟨⟨0, 0, 6, 1⟩, ⟨0, 0, 0, 1⟩⟩
        [⟨⟨0, 0, 2, 1⟩, ⟨0, 0, 1, 0⟩⟩, ⟨⟨0, 0, 5, 1⟩, ⟨0, 0, 1, 0⟩⟩] =
      some ⟨⟨0, 0, 5, 1⟩, ⟨0, 0, 1, 0⟩⟩ ∧
    (∃ pl ∈ [(⟨⟨0, 0, 2, 1⟩, ⟨0, 0, 1, 0⟩⟩ : Plane), ⟨⟨0, 0, 5, 1⟩, ⟨0, 0, 1, 0⟩⟩],
      segment_hit_plane pl ⟨⟨0, 0, 6, 1⟩, ⟨0, 0, 0, 1⟩⟩ =
        some (⟨⟨0, 0, 5, 1⟩, ⟨0, 0, 1, 0⟩⟩ : Plane).point ∧
      (⟨⟨0, 0, 5, 1⟩, ⟨0, 0, 1, 0⟩⟩ : Plane).normal = pl.normal) ∧
    ∀ pl ∈ [(⟨⟨0, 0, 2, 1⟩, ⟨0, 0, 1, 0⟩⟩ : Plane), ⟨⟨0, 0, 5, 1⟩, ⟨0, 0, 1, 0⟩⟩],
      ∀ pt, segment_hit_plane pl ⟨⟨0, 0, 6, 1⟩, ⟨0, 0, 0, 1⟩⟩ = some pt →
        pt.z ≤ (⟨⟨0, 0, 5, 1⟩, ⟨0, 0, 1, 0⟩⟩ : Plane).point.z := by
  have hres : segment_plane_tallest_collision ⟨⟨0, 0, 6, 1⟩, ⟨0, 0, 0, 1⟩⟩
      [⟨⟨0, 0, 2, 1⟩, ⟨0, 0, 1, 0⟩⟩, ⟨⟨0, 0, 5, 1⟩, ⟨0, 0, 1, 0⟩⟩] =
      some ⟨⟨0, 0, 5, 1⟩, ⟨0, 0, 1, 0⟩⟩ := by
    norm_num [segment_plane_tallest_collision, segment_hit_plane, Plane.new, Vec4.dot,
      vec4_sub_def, vec4_add_def, vec4_smul_def]
  have h :=
    (segment_plane_tallest_collision_spec ⟨⟨0, 0, 6, 1⟩, ⟨0, 0, 0, 1⟩⟩
      [⟨⟨0, 0, 2, 1⟩, ⟨0, 0, 1, 0⟩⟩, ⟨⟨0, 0, 5, 1⟩, ⟨0, 0, 1, 0⟩⟩]).2
      ⟨⟨0, 0, 5, 1⟩, ⟨0, 0, 1, 0⟩⟩ hres
  exact ⟨hres, h.1, h.2⟩

/-- `RayInv` transfers along an equivalence of the processed-set predicate. -/
theorem rayInv_congr (terrain : Terrain) (o d : Vec4) (done done2 : Nat → Prop)
    (acc : Option (ℚ × Vec4)) (h : RayInv terrain o d done acc)
    (hiff : ∀ k, done2 k ↔ done k) : RayInv terrain o d done2 acc := by
  constructor
  · intro hnone k hk
    exact h.1 hnone k ((hiff k).mp hk)
  · intro t p htp
    obtain ⟨⟨k0, hk0, hrest⟩, hbound⟩ := h.2 t p htp
    exact ⟨⟨k0, (hiff k0).mpr hk0, hrest⟩, fun k hk hacc => hbound k ((hiff k).mp hk) hacc⟩

/-- One step of the `ray_hit_terrain` loop preserves `RayInv`. -/
theorem rayInv_step (terrain : Terrain) (o d : Vec4) (done : Nat → Prop)
    (acc : Option (ℚ × Vec4)) (k : Nat) (h : RayInv terrain o d done acc) :
    RayInv terrain o d (fun k2 => done k2 ∨ k2 = k) (RayHit.step terrain o d acc k) := by
  by_cases hd : RayHit.triDenom terrain k d = 0
  · simp only [RayHit.step, if_pos hd]
    constructor
    · intro hnone k2 hk2
      rcases hk2 with hk2 | rfl
      · exact h.1 hnone k2 hk2
      · intro hacc
        exact hacc.1 hd
    · intro t p htp
      obtain ⟨⟨k0, hk0, hrest⟩, hbound⟩ := h.2 t p htp
      refine ⟨⟨k0, Or.inl hk0, hrest⟩, ?_⟩
      intro k2 hk2 hacc
      rcases hk2 with hk2 | rfl
      · exact hbound k2 hk2 hacc
      · exact absurd hd hacc.1
  · rcases acc with _ | ⟨tb, pb⟩
    · by_cases hb : (RayHit.triProjInTriangle terrain k o d &&
          decide (RayHit.triT terrain k o d > 0) && true) = true
      · simp only [RayHit.step, if_neg hd, if_pos hb]
        rw [Bool.and_true, Bool.and_eq_true, decide_eq_true_eq] at hb
        have hacck : RayHit.accepts terrain k o d := ⟨hd, hb.1, hb.2⟩
        constructor
        · intro hnone
          cases hnone
        · intro t p htp
          have hinj := Option.some.inj htp
          have ht : RayHit.triT terrain k o d = t := congrArg Prod.fst hinj
          have hp : RayHit.triIntersection terrain k o d = p := congrArg Prod.snd hinj
          refine ⟨⟨k, Or.inr rfl, hacck, ht.symm, hp.symm⟩, ?_⟩
          intro k2 hk2 hacc2
          rcases hk2 with hk2 | rfl
          · exact absurd hacc2 (h.1 rfl k2 hk2)
          · rw [ht]
      · simp only [RayHit.step, if_neg hd, if_neg hb]
        constructor
        · intro _ k2 hk2
          rcases hk2 with hk2 | rfl
          · exact h.1 rfl k2 hk2
          · intro hacc
            exact hb (by rw [Bool.and_true, Bool.and_eq_true, decide_eq_true_eq]
                         exact ⟨hacc.2.1, hacc.2.2⟩)
        · intro t p htp
          cases htp
    · by_cases hb : (RayHit.triProjInTriangle terrain k o d &&
          decide (RayHit.triT terrain k o d > 0) &&
          decide (RayHit.triT terrain k o d < tb)) = true
      · simp only [RayHit.step, if_neg hd, if_pos hb]
        rw [Bool.and_eq_true, Bool.and_eq_true, decide_eq_true_eq, decide_eq_true_eq] at hb
        obtain ⟨⟨hproj, htpos⟩, hlt⟩ := hb
        have hacck : RayHit.accepts terrain k o d := ⟨hd, hproj, htpos⟩
        obtain ⟨⟨k0, hk0, hrest⟩, hbound⟩ := h.2 tb pb rfl
        constructor
        · intro hnone
          cases hnone
        · intro t p htp
          have hinj := Option.some.inj htp
          have ht : RayHit.triT terrain k o d = t := congrArg Prod.fst hinj
          have hp : RayHit.triIntersection terrain k o d = p := congrArg Prod.snd hinj
          refine ⟨⟨k, Or.inr rfl, hacck, ht.symm, hp.symm⟩, ?_⟩
          intro k2 hk2 hacc2
          rcases hk2 with hk2 | rfl
          · have := hbound k2 hk2 hacc2
            rw [← ht]
            exact le_trans (le_of_lt hlt) this
          · rw [ht]
      · simp only [RayHit.step, if_neg hd, if_neg hb]
        constructor
        · intro hnone
          cases hnone
        · intro t p htp
          have hinj := Option.some.inj htp
          have ht : tb = t := congrArg Prod.fst hinj
          have hp : pb = p := congrArg Prod.snd hinj
          subst ht
          subst hp
          obtain ⟨⟨k0, hk0, hrest⟩, hbound⟩ := h.2 tb pb rfl
          refine ⟨⟨k0, Or.inl hk0, hrest⟩, ?_⟩
          intro k2 hk2 hacc2
          rcases hk2 with hk2 | heq
          · exact hbound k2 hk2 hacc2
          · rw [heq] at hacc2 ⊢
            have hnlt : ¬(RayHit.triT terrain k o d < tb) := by
              intro hlt
              exact hb (by rw [Bool.and_eq_true, Bool.and_eq_true, decide_eq_true_eq,
                               decide_eq_true_eq]
                           exact ⟨⟨hacc2.2.1, hacc2.2.2⟩, hlt⟩)
            exact le_of_not_lt hnlt

/-- The `ray_hit_terrain` fold carries `RayInv` over any remaining triangle
list. -/
theorem rayInv_foldl (terrain : Terrain) (o d : Vec4) :
    ∀ (l : List Nat) (done : Nat → Prop) (acc : Option (ℚ × Vec4)),
      RayInv terrain o d done acc →
      RayInv terrain o d (fun k => done k ∨ k ∈ l)
        (List.foldl (RayHit.step terrain o d) acc l) := by
  intro l
  induction l with
  | nil =>
    intro done acc h
    rw [List.foldl_nil]
    refine rayInv_congr terrain o d done _ acc h ?_
    intro k
    simp
  | cons p l ih =>
    intro done acc h
    rw [List.foldl_cons]
    have hstep := rayInv_step terrain o d done acc p h
    have hrest := ih _ _ hstep
    refine rayInv_congr terrain o d _ _ _ hrest ?_
    intro k
    simp only [List.mem_cons]
    tauto

/-- C8: `ray_hit_terrain` on a well-formed terrain returns `none` exactly when
no triangle is accepted (a triangle is accepted when its plane is not parallel
to the ray — denominator exactly non-zero —, the intersection parameter is
strictly positive, and the dominant-axis 2-D projection of the intersection
passes `point_in_triangle`); otherwise it returns the intersection point of an
accepted triangle whose ray parameter `t` is least among all accepted
triangles. -/
theorem ray_hit_terrain_spec (terrain : Terrain) (o d : Vec4) (hwf : terrain.WellFormed) :
    (ray_hit_terrain terrain o d = none ↔
      ∀ k, k < terrain.face_normals.length → ¬RayHit.accepts terrain k o d) ∧
    (∀ p, ray_hit_terrain terrain o d = some p →
      ∃ k, k < terrain.face_normals.length ∧ RayHit.accepts terrain k o d ∧
        p = RayHit.triIntersection terrain k o d ∧
        ∀ k2, k2 < terrain.face_normals.length → RayHit.accepts terrain k2 o d →
          RayHit.triT terrain k o d ≤ RayHit.triT terrain k2 o d) := by
  have hbase : RayInv terrain o d (fun _ => False) none := by
    constructor
    · intro _ k hk
      cases hk
    · intro t p htp
      cases htp
  have hfold := rayInv_foldl terrain o d (List.range ((terrain.indices.length + 2) / 3))
    (fun _ => False) none hbase
  have hn : (terrain.indices.length + 2) / 3 = terrain.face_normals.length := by
    rw [hwf.1]
    omega
  have h2 := rayInv_congr terrain o d _ (fun k => k < terrain.face_normals.length) _ hfold
    (by intro k
        simp only [List.mem_range, false_or, hn])
  have heq : ray_hit_terrain terrain o d =
      (List.foldl (RayHit.step terrain o d) none
        (List.range ((terrain.indices.length + 2) / 3))).map (fun best => best.2) := rfl
  constructor
  · constructor
    · intro hnone
      rw [heq] at hnone
      exact fun k hk => h2.1 (Option.map_eq_none'.mp hnone) k hk
    · intro hall
      rcases hres : List.foldl (RayHit.step terrain o d) none
          (List.range ((terrain.indices.length + 2) / 3)) with _ | tp
      · rw [heq, hres]
        rfl
      · rcases tp with ⟨t0, p0⟩
        obtain ⟨⟨k0, hk0, hacc0, _⟩, _⟩ := h2.2 t0 p0 hres
        exact absurd hacc0 (hall k0 hk0)
  · intro p hp
    rw [heq] at hp
    obtain ⟨⟨t0, p0⟩, hfold0, hmap⟩ := Option.map_eq_some'.mp hp
    obtain ⟨⟨k0, hk0, hacc0, htt, hpp⟩, hbound⟩ := h2.2 t0 p0 hfold0
    refine ⟨k0, hk0, hacc0, ?_, ?_⟩
    · rw [← hmap, hpp]
    · intro k2 hk2 hacc2
      have := hbound k2 hk2 hacc2
      rw [htt] at this
      exact this

/-- C8 witness: a single flat triangle at `z = 0` under a downward ray from
`(0,0,5)`: the terrain is well-formed, the ray hits at `(0,0,0)` with `t = 5`,
and the returned point is the accepted hit of least `t`. -/
theorem ray_hit_terrain_spec_witness :
    Terrain.WellFormed ⟨[⟨-10, -10, 0⟩, ⟨10, -10, 0⟩, ⟨0, 10, 0⟩], [0, 1, 2], [⟨0, 0, 1⟩]⟩ ∧
    ray_hit_terrain ⟨[⟨-10, -10, 0⟩, ⟨10, -10, 0⟩, ⟨0, 10, 0⟩], [0, 1, 2], [⟨0, 0, 1⟩]⟩
      ⟨0, 0, 5, 1⟩ ⟨0, 0, -1, 0⟩ = some ⟨0, 0, 0, 1⟩ ∧
    (∃ k,
      k < (⟨[⟨-10, -10, 0⟩, ⟨10, -10, 0⟩, ⟨0, 10, 0⟩], [0, 1, 2],
            [⟨0, 0, 1⟩]⟩ : Terrain).face_normals.length ∧
      RayHit.accepts ⟨[⟨-10, -10, 0⟩, ⟨10, -10, 0⟩, ⟨0, 10, 0⟩], [0, 1, 2], [⟨0, 0, 1⟩]⟩ k
        ⟨0, 0, 5, 1⟩ ⟨0, 0, -1, 0⟩ ∧
      (⟨0, 0, 0, 1⟩ : Vec4) =
        RayHit.triIntersection ⟨[⟨-10, -10, 0⟩, ⟨10, -10, 0⟩, ⟨0, 10, 0⟩], [0, 1, 2], [⟨0, 0, 1⟩]⟩
          k ⟨0, 0, 5, 1⟩ ⟨0, 0, -1, 0⟩ ∧
      ∀ k2,
        k2 < (⟨[⟨-10, -10, 0⟩, ⟨10, -10, 0⟩, ⟨0, 10, 0⟩], [0, 1, 2],
              [⟨0, 0, 1⟩]⟩ : Terrain).face_normals.length →
        RayHit.accepts ⟨[⟨-10, -10, 0⟩, ⟨10, -10, 0⟩, ⟨0, 10, 0⟩], [0, 1, 2], [⟨0, 0, 1⟩]⟩ k2
          ⟨0, 0, 5, 1⟩ ⟨0, 0, -1, 0⟩ →
        RayHit.triT ⟨[⟨-10, -10, 0⟩, ⟨10, -10, 0⟩, ⟨0, 10, 0⟩], [0, 1, 2], [⟨0, 0, 1⟩]⟩ k
            ⟨0, 0, 5, 1⟩ ⟨0, 0, -1, 0⟩ ≤
          RayHit.triT ⟨[⟨-10, -10, 0⟩, ⟨10, -10, 0⟩, ⟨0, 10, 0⟩], [0, 1, 2], [⟨0, 0, 1⟩]⟩ k2
            ⟨0, 0, 5, 1⟩ ⟨0, 0, -1, 0⟩) := by
  have hwf :
      Terrain.WellFormed ⟨[⟨-10, -10, 0⟩, ⟨10, -10, 0⟩, ⟨0, 10, 0⟩], [0, 1, 2], [⟨0, 0, 1⟩]⟩ := by
    constructor
    · rfl
    · intro ix hix
      rcases hix with _ | ⟨_, _ | ⟨_, _ | ⟨_, h⟩⟩⟩
      · simp
      · simp
      · simp
      · cases h
  have hsome :
      ray_hit_terrain ⟨[⟨-10, -10, 0⟩, ⟨10, -10, 0⟩, ⟨0, 10, 0⟩], [0, 1, 2], [⟨0, 0, 1⟩]⟩
        ⟨0, 0, 5, 1⟩ ⟨0, 0, -1, 0⟩ = some ⟨0, 0, 0, 1⟩ := by
    norm_num [ray_hit_terrain, RayHit.step, RayHit.triDenom, RayHit.triT, RayHit.triIntersection,
      RayHit.triProjInTriangle, RayHit.triPlane, RayHit.triA, RayHit.triB, RayHit.triC,
      RayHit.triNormal, Plane.new, point_in_triangle, sign, Vec4.dot, vec4_sub_def, vec4_add_def,
      vec4_smul_def, f32Epsilon, List.range_succ]
  exact ⟨hwf, hsome,
    (ray_hit_terrain_spec ⟨[⟨-10, -10, 0⟩, ⟨10, -10, 0⟩, ⟨0, 10, 0⟩], [0, 1, 2], [⟨0, 0, 1⟩]⟩
      ⟨0, 0, 5, 1⟩ ⟨0, 0, -1, 0⟩ hwf).2 ⟨0, 0, 0, 1⟩ hsome⟩

/-- C4 counterexample: a structurally complete 42-byte terrain file with one
vertex and the index triple `[0, 5, 0]` loads successfully — `from_ozt`
returns a `Terrain` whose index `5` is out of range for its single-vertex
list, contradicting the claim that `from_ozt` halts on every malformed file
and never returns an out-of-range index.  The panic only happens later, at
first use in `get_terrain_triangle`. -/
theorem from_ozt_out_of_range_counterexample :
    RawTerrain.from_ozt
        ([12, 0, 0, 0] ++ List.replicate 12 0 ++ [6, 0, 0, 0] ++ [0, 0, 5, 0, 0, 0] ++
          [12, 0, 0, 0] ++ List.replicate 12 0) =
      some ⟨[⟨0, 0, 0⟩], [0, 5, 0], [⟨0, 0, 0⟩]⟩ ∧
    5 ∈ ([0, 5, 0] : List Nat) ∧
    ([(⟨0, 0, 0⟩ : Vec3Bits)] : List Vec3Bits).length ≤ 5 ∧
    get_terrain_triangle ⟨[⟨0, 0, 0⟩], [0, 5, 0], [⟨0, 0, 0⟩]⟩ 0 = none := by
  exact ⟨rfl, by decide, by decide, rfl⟩

/-- C4 (amended): `Terrain::from_ozt` panics on truncated input (any file too
short for its header reads fails to load), but it performs no validation of
the index values: the 42-byte file of the counterexample loads into a
`Terrain` whose index `5` exceeds the vertex count `1`, and the out-of-range
access panics only later, in `get_terrain_triangle`. -/
theorem from_ozt_truncation_no_index_validation :
    (∀ bytes : List Nat, bytes.length < 4 → RawTerrain.from_ozt bytes = none) ∧
    RawTerrain.from_ozt
        ([12, 0, 0, 0] ++ List.replicate 12 0 ++ [6, 0, 0, 0] ++ [0, 0, 5, 0, 0, 0] ++
          [12, 0, 0, 0] ++ List.replicate 12 0) =
      some ⟨[⟨0, 0, 0⟩], [0, 5, 0], [⟨0, 0, 0⟩]⟩ ∧
    ([(⟨0, 0, 0⟩ : Vec3Bits)] : List Vec3Bits).length ≤ 5 ∧
    5 ∈ ([0, 5, 0] : List Nat) ∧
    get_terrain_triangle ⟨[⟨0, 0, 0⟩], [0, 5, 0], [⟨0, 0, 0⟩]⟩ 0 = none := by
  refine ⟨?_, rfl, by decide, by decide, rfl⟩
  intro bytes hlen
  rcases bytes with _ | ⟨b0, _ | ⟨b1, _ | ⟨b2, _ | ⟨b3, rest⟩⟩⟩⟩
  · rfl
  · rfl
  · rfl
  · rfl
  · simp only [List.length_cons] at hlen
    omega

/-- C4 witness: the empty file is truncated and fails to load. -/
theorem from_ozt_truncation_witness : RawTerrain.from_ozt [] = none :=
  from_ozt_truncation_no_index_validation.1 [] (by decide)
